import Mathlib

set_option maxRecDepth 8192

/-!
Verification development for the task-orchestration core of the
dev-agent-harness repository.

The TypeScript sources are shallowly embedded as executable Lean
definitions:

* `Json`, `jsonParse` — model of the runtime values produced by
  `JSON.parse` and of the parser itself (JSON grammar as accepted by
  `JSON.parse`: a full value followed only by whitespace).
* `validateFeatureAdder` / `validateFeatureAtomizer` — the two
  `validateFeature` predicates (`FeatureAdderAgent` in part_000,
  `FeatureAtomizerAgent` in part_001).  JavaScript truthiness of the
  accessed fields is modelled by `truthy`; property access on a
  non-object is modelled as `false` (in JS it yields `undefined` — falsy
  — or throws on `null`, which the surrounding `try` blocks turn into
  the same "continue" behaviour).
* `parseFeature` / `parseFeatures` — the multi-strategy extractors.
  The regular expressions of the source are rendered as operational
  string-scanning functions; each rendering is documented next to its
  definition together with the regex it implements.
* `Feature`, `FeatureList`, `StoreFile`, `Disk` — the durable state.
  `StoreFile` distinguishes a missing `feature_list.json` from one that
  exists but fails to read/parse, and from a parsed list.
* `runSession`, `runLoopAux`/`runLoop`, `atomizeFeature`, `addFeature`
  — the session executor (`CodingAgent.runSession`), the `loop` CLI
  command, and the two queue-append pipelines.  The external agent
  invocation (`runAgentQuery`) is modelled by a `Collaborator`: a
  terminal behaviour (a returned `{success, output, error}` record or a
  thrown error) plus an arbitrary effect on the disk, since the external
  process may mutate the workspace.
-/

namespace DevAgentHarness

/-! ## JSON values and `JSON.parse` -/

/-- Runtime JSON values.  Numbers keep their source literal: the only
facts the core ever needs about a number are "is it zero" (JS
truthiness) and "is it a boolean / array" (it is not). -/
inductive Json where
  | null : Json
  | bool (b : Bool) : Json
  | num (lit : String) : Json
  | str (s : String) : Json
  | arr (elems : List Json) : Json
  | obj (fields : List (String × Json)) : Json
deriving Repr

/-- JSON whitespace (the four characters `JSON.parse` skips). -/
def isWsJson (c : Char) : Bool :=
  c = ' ' || c = '\t' || c = '\n' || c = '\r'

def skipWs : List Char → List Char
  | [] => []
  | c :: cs => if isWsJson c then skipWs cs else c :: cs

/-- Value of one hexadecimal digit (for the `\uXXXX` escape). -/
def hexVal (c : Char) : Option Nat :=
  let n := c.toNat
  if 48 ≤ n && n ≤ 57 then some (n - 48)
  else if 97 ≤ n && n ≤ 102 then some (n - 97 + 10)
  else if 65 ≤ n && n ≤ 70 then some (n - 65 + 10)
  else none

/-- Combine four hex digit values into a code point. -/
def hexQuad (ha hb hc hd : Nat) : Nat :=
  [ha, hb, hc, hd].foldl (fun acc v => 16 * acc + v) 0

def escChar : Char → Option Char
  | '"' => some '"'
  | '\\' => some '\\'
  | '/' => some '/'
  | 'b' => some (Char.ofNat 8)
  | 'f' => some (Char.ofNat 12)
  | 'n' => some '\n'
  | 'r' => some '\r'
  | 't' => some '\t'
  | _ => none

/-- Parse the body of a JSON string, the opening quote already
consumed; returns the decoded characters and the rest of the input.
Raw control characters are rejected, as in `JSON.parse`. -/
def parseJString : List Char → Option (List Char × List Char)
  | [] => none
  | '"' :: rest => some ([], rest)
  | '\\' :: 'u' :: a :: b :: c :: d :: rest =>
    match hexVal a, hexVal b, hexVal c, hexVal d with
    | some ha, some hb, some hc, some hd =>
      (parseJString rest).map
        (fun p => (Char.ofNat (hexQuad ha hb hc hd) :: p.1, p.2))
    | _, _, _, _ => none
  | '\\' :: e :: rest =>
    match escChar e with
    | some c => (parseJString rest).map (fun p => (c :: p.1, p.2))
    | none => none
  | c :: rest =>
    if c.toNat < 32 then none
    else (parseJString rest).map (fun p => (c :: p.1, p.2))

def takeDigits (cs : List Char) : List Char × List Char :=
  (cs.takeWhile Char.isDigit, cs.dropWhile Char.isDigit)

/-- JSON integer part: `0` or a nonzero digit followed by digits. -/
def parseIntPart : List Char → Option (List Char × List Char)
  | '0' :: rest => some (['0'], rest)
  | c :: rest =>
    if c.isDigit then
      match takeDigits rest with
      | (ds, r) => some (c :: ds, r)
    else none
  | [] => none

/-- Optional JSON fraction part `.[0-9]+`. -/
def parseFrac : List Char → Option (List Char × List Char)
  | '.' :: rest =>
    match takeDigits rest with
    | ([], _) => none
    | (ds, r) => some ('.' :: ds, r)
  | cs => some ([], cs)

/-- Optional JSON exponent part `[eE][+-]?[0-9]+`. -/
def parseExp : List Char → Option (List Char × List Char)
  | e :: s :: rest =>
    if e = 'e' || e = 'E' then
      if s = '+' || s = '-' then
        match takeDigits rest with
        | ([], _) => none
        | (ds, r) => some (e :: s :: ds, r)
      else
        match takeDigits (s :: rest) with
        | ([], _) => none
        | (ds, r) => some (e :: ds, r)
    else some ([], e :: s :: rest)
  | [e] =>
    if e = 'e' || e = 'E' then none else some ([], [e])
  | [] => some ([], [])

def parseJNumber (cs : List Char) : Option (List Char × List Char) :=
  let p := match cs with
    | '-' :: r => (['-'], r)
    | _ => (([] : List Char), cs)
  match parseIntPart p.2 with
  | none => none
  | some (ip, r1) =>
    match parseFrac r1 with
    | none => none
    | some (fp, r2) =>
      match parseExp r2 with
      | none => none
      | some (ep, r3) => some (p.1 ++ ip ++ fp ++ ep, r3)

mutual

/-- Fuel-indexed JSON value parser (the fuel given by `jsonParseL` is
always sufficient for its input). -/
def parseJValue : Nat → List Char → Option (Json × List Char)
  | 0, _ => none
  | Nat.succ fuel, cs =>
    match skipWs cs with
    | 'n' :: 'u' :: 'l' :: 'l' :: rest => some (Json.null, rest)
    | 't' :: 'r' :: 'u' :: 'e' :: rest => some (Json.bool true, rest)
    | 'f' :: 'a' :: 'l' :: 's' :: 'e' :: rest => some (Json.bool false, rest)
    | '"' :: rest =>
      match parseJString rest with
      | some (s, r) => some (Json.str (String.mk s), r)
      | none => none
    | '[' :: rest =>
      match skipWs rest with
      | ']' :: r => some (Json.arr [], r)
      | cs2 =>
        match parseJElems fuel cs2 with
        | some (es, r) => some (Json.arr es, r)
        | none => none
    | '{' :: rest =>
      match skipWs rest with
      | '}' :: r => some (Json.obj [], r)
      | cs2 =>
        match parseJFields fuel cs2 with
        | some (fs, r) => some (Json.obj fs, r)
        | none => none
    | cs1 =>
      match parseJNumber cs1 with
      | some (lit, r) => some (Json.num (String.mk lit), r)
      | none => none

/-- Comma-separated array elements, terminated by `]`. -/
def parseJElems : Nat → List Char → Option (List Json × List Char)
  | 0, _ => none
  | Nat.succ fuel, cs =>
    match parseJValue fuel cs with
    | none => none
    | some (j, r) =>
      match skipWs r with
      | ',' :: r2 =>
        match parseJElems fuel r2 with
        | some (es, r3) => some (j :: es, r3)
        | none => none
      | ']' :: r2 => some ([j], r2)
      | _ => none

/-- Comma-separated object members, terminated by `}`. -/
def parseJFields : Nat → List Char → Option (List (String × Json) × List Char)
  | 0, _ => none
  | Nat.succ fuel, cs =>
    match skipWs cs with
    | '"' :: rest =>
      match parseJString rest with
      | none => none
      | some (k, r) =>
        match skipWs r with
        | ':' :: r2 =>
          match parseJValue fuel r2 with
          | none => none
          | some (v, r3) =>
            match skipWs r3 with
            | ',' :: r4 =>
              match parseJFields fuel r4 with
              | some (fs, r5) => some ((String.mk k, v) :: fs, r5)
              | none => none
            | '}' :: r4 => some ([(String.mk k, v)], r4)
            | _ => none
        | _ => none
    | _ => none

end

/-- `JSON.parse` on a character list: one value, then only whitespace. -/
def jsonParseL (cs : List Char) : Option Json :=
  match parseJValue (4 * cs.length + 16) cs with
  | some (j, rest) => if (skipWs rest).isEmpty then some j else none
  | none => none

/-- `JSON.parse` on a string. -/
def jsonParse (s : String) : Option Json := jsonParseL s.data

/-! ## JS truthiness, field access and the two `validateFeature` checks -/

def emptyStr : String := ""

/-- Is the mantissa of a JSON number literal zero (`0`, `-0.00`, `0e5`,
...)?  The exponent never affects zeroness. -/
def numLitIsZero (lit : String) : Bool :=
  (lit.data.takeWhile (fun c => c ≠ 'e' && c ≠ 'E')).all
    (fun c => !c.isDigit || c = '0')

/-- JavaScript truthiness of a parsed JSON value (`NaN` cannot occur in
`JSON.parse` output). -/
def truthy : Json → Bool
  | Json.null => false
  | Json.bool b => b
  | Json.num lit => !numLitIsZero lit
  | Json.str s => !(s == emptyStr)
  | Json.arr _ => true
  | Json.obj _ => true

/-- Property access `j[k]` on a parsed object; `none` models
`undefined`.  `JSON.parse` lets a later duplicate key overwrite an
earlier one, hence the reversed lookup. -/
def fieldOpt (j : Json) (k : String) : Option Json :=
  match j with
  | Json.obj fs => (fs.reverse.find? (fun p => p.1 == k)).map (fun p => p.2)
  | _ => none

def truthyField (j : Json) (k : String) : Bool :=
  match fieldOpt j k with
  | some v => truthy v
  | none => false

def isArrOpt : Option Json → Bool
  | some (Json.arr _) => true
  | _ => false

def isNonEmptyArr : Option Json → Bool
  | some (Json.arr es) => !es.isEmpty
  | _ => false

def isBoolOpt : Option Json → Bool
  | some (Json.bool _) => true
  | _ => false

def idKey : String := "id"
def titleKey : String := "title"
def descKey : String := "description"
def acKey : String := "acceptance_criteria"
def passesKey : String := "passes"
def typeKey : String := "type"
def targetKey : String := "target"

/-- `FeatureAdderAgent.validateFeature` (part_000 lines 355-365):
`!!(f.id && f.title && f.description && f.acceptance_criteria &&
Array.isArray(f.acceptance_criteria) && f.acceptance_criteria.length > 0
&& typeof f.passes === 'boolean')`.  On a non-object the accesses yield
`undefined` (falsy) or throw on `null`; every call site sits in a `try`
that treats a throw like a failed validation, so both cases are
modelled as `false`. -/
def validateFeatureAdder (j : Json) : Bool :=
  match j with
  | Json.obj _ =>
    truthyField j idKey && truthyField j titleKey && truthyField j descKey &&
    truthyField j acKey && isArrOpt (fieldOpt j acKey) &&
    isNonEmptyArr (fieldOpt j acKey) && isBoolOpt (fieldOpt j passesKey)
  | _ => false

/-- `FeatureAtomizerAgent.validateFeature` (part_001 lines 299-311):
same checks with a leading `feature && typeof feature === 'object'`
guard.  A JS array passes that guard but then fails `feature.id`
(`undefined`), so only objects can validate. -/
def validateFeatureAtomizer (j : Json) : Bool :=
  match j with
  | Json.obj _ =>
    truthyField j idKey && truthyField j titleKey && truthyField j descKey &&
    truthyField j acKey && isArrOpt (fieldOpt j acKey) &&
    isNonEmptyArr (fieldOpt j acKey) && isBoolOpt (fieldOpt j passesKey)
  | _ => false

/-! ## The extraction cascade (`parseFeature`, part_000 lines 240-353) -/

/-- JS `\s` on the ASCII range (vertical tab and form feed included;
the rare unicode whitespace characters are not modelled). -/
def isWsJS (c : Char) : Bool :=
  c = ' ' || c = '\t' || c = '\n' || c = '\r' || c.toNat = 11 || c.toNat = 12

/-- `String.prototype.trim`. -/
def trimL (cs : List Char) : List Char :=
  ((cs.dropWhile isWsJS).reverse.dropWhile isWsJS).reverse

/-- Does `pat` occur at the head of the text? -/
def leadsWith : List Char → List Char → Bool
  | [], _ => true
  | _ :: _, [] => false
  | p :: ps, c :: cs => p = c && leadsWith ps cs

/-- Index of the first occurrence of `pat`. -/
def findSubIdx (pat : List Char) : List Char → Option Nat
  | [] => if leadsWith pat [] then some 0 else none
  | c :: cs =>
    if leadsWith pat (c :: cs) then some 0
    else (findSubIdx pat cs).map (fun n => n + 1)

def backtick : Char := Char.ofNat 96
def fenceMark : List Char := [backtick, backtick, backtick]
def jsonTag : List Char := ['j', 's', 'o', 'n']
def quoteC : Char := Char.ofNat 34
def idLit : List Char := [quoteC, 'i', 'd', quoteC]
def titleLit : List Char := [quoteC, 't', 'i', 't', 'l', 'e', quoteC]

/-- Parse-then-validate step shared by every strategy of
`parseFeature`: `JSON.parse` the candidate text and accept it only when
`validateFeature` holds; a parse exception or a failed validation both
mean "continue with the next strategy". -/
def tryValidateAdder (txt : List Char) : Option Json :=
  match jsonParseL txt with
  | some j => if validateFeatureAdder j then some j else none
  | none => none

/-- Strategy 2 candidate: the capture group of
an application of the regex `(three backticks)(?:json)?\s*([\s\S]*?)(three backticks)`
— the text between the first fence and the next one, with an optional
`json` tag and the leading whitespace consumed before the capture.  (A
leftmost match at a later fence pair when the first fence is unclosed
is not modelled; it cannot arise when at most one fenced block is
present.) -/
def fencedInner (cs : List Char) : Option (List Char) :=
  match findSubIdx fenceMark cs with
  | none => none
  | some i =>
    let after := (cs.drop i).drop 3
    match findSubIdx fenceMark after with
    | none => none
    | some j =>
      let inner := after.take j
      let inner2 := if leadsWith jsonTag inner then inner.drop 4 else inner
      some (inner2.dropWhile isWsJS)

/-- `[^}]*PAT`: the first occurrence of `PAT` must precede every `}`;
consumes through the pattern. -/
def consumeToLitNoRBrace (pat : List Char) (cs : List Char) : Option (List Char) :=
  match findSubIdx pat cs with
  | none => none
  | some i =>
    if (cs.take i).contains '}' then none
    else some ((cs.drop i).drop pat.length)

def consumeChar (c : Char) : List Char → Option (List Char)
  | x :: xs => if x = c then some xs else none
  | [] => none

/-- `"[^"]*"`: a quoted run without inner quotes. -/
def consumeQuoted (cs : List Char) : Option (List Char) :=
  match cs with
  | x :: xs =>
    if x = quoteC then
      consumeChar quoteC (xs.dropWhile (fun c => c ≠ quoteC))
    else none
  | [] => none

/-- Strategy 3 anchor test: does the `featurePattern` regex
`\{[^}]*"id"\s*:\s*"[^"]*"[^}]*"title"\s*:\s*"[^"]*"[\s\S]*?\}`
match at the head of the text?  (Backtracking to a later `"id"` /
`"title"` occurrence when an earlier one is not followed by the rest of
the pattern is not modelled.) -/
def featurePatternAt (cs : List Char) : Bool :=
  match cs with
  | '{' :: rest =>
    match consumeToLitNoRBrace idLit rest with
    | none => false
    | some r1 =>
      match consumeChar ':' (r1.dropWhile isWsJS) with
      | none => false
      | some r2 =>
        match consumeQuoted (r2.dropWhile isWsJS) with
        | none => false
        | some r3 =>
          match consumeToLitNoRBrace titleLit r3 with
          | none => false
          | some r4 =>
            match consumeChar ':' (r4.dropWhile isWsJS) with
            | none => false
            | some r5 =>
              match consumeQuoted (r5.dropWhile isWsJS) with
              | none => false
              | some r6 => r6.contains '}'
  | _ => false

/-- Leftmost start of a `featurePattern` match (for the leftmost match,
`output.indexOf(featureMatch[0])` in the source is exactly this
index). -/
def findFeatureStart : List Char → Option Nat
  | [] => none
  | c :: cs =>
    if featurePatternAt (c :: cs) then some 0
    else (findFeatureStart cs).map (fun n => n + 1)

/-- The brace-depth scan of strategy 3: running count over `{`/`}`,
returning the exclusive end index at the `}` that brings the count from
1 to 0 (string-blind, as in the source). -/
def braceScan : List Char → Nat → Int → Option Nat
  | [], _, _ => none
  | c :: cs, i, depth =>
    if c = '{' then braceScan cs (i + 1) (depth + 1)
    else if c = '}' then
      if depth = 1 then some (i + 1) else braceScan cs (i + 1) (depth - 1)
    else braceScan cs (i + 1) depth

/-- Strategy 3: locate the feature-looking object, expand it with the
brace counter, then parse and validate.  When the counter never returns
to zero the source leaves `endIndex = startIndex` and feeds the empty
substring to `JSON.parse`, which throws — i.e. the strategy fails. -/
def strat3 (cs : List Char) : Option Json :=
  match findFeatureStart cs with
  | none => none
  | some start =>
    match braceScan (cs.drop start) 0 0 with
    | some endLen => tryValidateAdder ((cs.drop start).take endLen)
    | none => none

/-- `output.split('\n')`. -/
def splitOnNL : List Char → List (List Char)
  | [] => [[]]
  | '\n' :: cs => [] :: splitOnNL cs
  | c :: cs =>
    match splitOnNL cs with
    | l :: ls => (c :: l) :: ls
    | [] => [[c]]

/-- Per-line brace-count delta of strategy 4's inner character loop. -/
def lineDelta (line : List Char) : Int :=
  line.foldl (fun d c => if c = '{' then d + 1 else if c = '}' then d - 1 else d) 0

/-- Strategy 4's line scan: skip empty lines (`if (!line) continue`);
the first line whose trimmed text starts with `{` opens the candidate
region with the counter reset to 0; from then on each line's braces are
accumulated and the region closes on the line where the counter returns
to 0.  Returns (start line, end line). -/
def scanLinesS4 : List (List Char) → Nat → Option Nat → Int → Option (Nat × Nat)
  | [], _, _, _ => none
  | line :: rest, i, start?, count =>
    if line.isEmpty then scanLinesS4 rest (i + 1) start? count
    else
      match start? with
      | none =>
        if leadsWith ['{'] (trimL line) then
          let c1 := lineDelta line
          if c1 = 0 then some (i, i) else scanLinesS4 rest (i + 1) (some i) c1
        else scanLinesS4 rest (i + 1) none count
      | some s =>
        let c1 := count + lineDelta line
        if c1 = 0 then some (s, i) else scanLinesS4 rest (i + 1) (some s) c1

/-- `lines.slice(s, e + 1).join('\n')`. -/
def joinNL : List (List Char) → List Char
  | [] => []
  | [l] => l
  | l :: ls => l ++ '\n' :: joinNL ls

/-- Strategy 4: line-by-line brace matching. -/
def strat4 (cs : List Char) : Option Json :=
  let lines := splitOnNL cs
  match scanLinesS4 lines 0 none 0 with
  | none => none
  | some (s, e) => tryValidateAdder (joinNL ((lines.drop s).take (e - s + 1)))

def notBrace (c : Char) : Bool := c ≠ '{' && c ≠ '}'

/-- Greedy matcher for `\{[^up-to-one-nested-level]\}` — precisely, the
tail of `allObjectsPattern = \{[^{}]*(?:\{[^{}]*\}[^{}]*)*\}` after its
opening brace.  The pattern admits no backtracking: after `[^{}]*` the
next character is forced, so the match length is deterministic. -/
def matchObj2Loop : Nat → List Char → Nat → Option Nat
  | 0, _, _ => none
  | Nat.succ fuel, cs, n =>
    let a := cs.takeWhile notBrace
    let cs1 := cs.dropWhile notBrace
    match cs1 with
    | '}' :: _ => some (n + a.length + 1)
    | '{' :: rest =>
      let b := rest.takeWhile notBrace
      match rest.dropWhile notBrace with
      | '}' :: rest2 => matchObj2Loop fuel rest2 (n + a.length + 1 + b.length + 1)
      | _ => none
    | _ => none

/-- Length of the `allObjectsPattern` match starting at the head, if
any. -/
def matchObj2At (cs : List Char) : Option Nat :=
  match cs with
  | '{' :: rest => matchObj2Loop (rest.length + 1) rest 1
  | _ => none

/-- All (non-overlapping, left-to-right) matches of
`allObjectsPattern`, as produced by `output.match(...g)`. -/
def allObjMatches : Nat → List Char → List (List Char)
  | 0, _ => []
  | Nat.succ fuel, cs =>
    match cs with
    | [] => []
    | _ :: rest =>
      match matchObj2At cs with
      | some len => cs.take len :: allObjMatches fuel (cs.drop len)
      | none => allObjMatches fuel rest

/-- Strategy 5's per-candidate loop: parse and validate each matched
object, first valid one wins. -/
def firstValidAdder : List (List Char) → Option Json
  | [] => none
  | t :: ts =>
    match tryValidateAdder t with
    | some j => some j
    | none => firstValidAdder ts

def strat5 (cs : List Char) : Option Json :=
  firstValidAdder (allObjMatches cs.length cs)

/-- `FeatureAdderAgent.parseFeature` (part_000 lines 240-353): the
five-strategy cascade, first success wins; every strategy accepts only
a candidate that passes `validateFeature`. -/
def parseFeature (output : String) : Option Json :=
  let cs := output.data
  tryValidateAdder (trimL cs) <|>
  (fencedInner cs).bind (fun inner => tryValidateAdder (trimL inner)) <|>
  strat3 cs <|>
  strat4 cs <|>
  strat5 cs

/-! ## The array-extraction cascade (`parseFeatures`, part_001 lines 228-297) -/

/-- Parse-then-validate step shared by every strategy of
`parseFeatures`: the candidate must parse, be an array, and every
element must pass the atomizer's `validateFeature`. -/
def tryValidateArr (txt : List Char) : Option (List Json) :=
  match jsonParseL txt with
  | some (Json.arr fs) => if fs.all validateFeatureAtomizer then some fs else none
  | _ => none

/-- Atomizer strategy 2 capture: the group of
`(fence)(?:json)?\s*(\[[\s\S]*?\])\s*(fence)` — after the first fence,
optional `json` tag and whitespace, the capture must start at `[` and
extends (lazily) to the first `]` that is followed by whitespace and a
closing fence. -/
def lazyArrClose : List Char → Nat → Option Nat
  | [], _ => none
  | c :: cs, n =>
    if c = ']' && leadsWith fenceMark (cs.dropWhile isWsJS) then some (n + 1)
    else lazyArrClose cs (n + 1)

def fencedArrayInner (cs : List Char) : Option (List Char) :=
  match findSubIdx fenceMark cs with
  | none => none
  | some i =>
    let after := (cs.drop i).drop 3
    let a1 := if leadsWith jsonTag after then after.drop 4 else after
    let a2 := a1.dropWhile isWsJS
    match a2 with
    | '[' :: rest => (lazyArrClose rest 1).map (fun n => a2.take n)
    | _ => none

/-- Atomizer strategy 3's bracket-depth scan (`[`/`]` counting from
`output.indexOf('[')`, string-blind). -/
def bracketScan : List Char → Nat → Int → Option Nat
  | [], _, _ => none
  | c :: cs, i, depth =>
    if c = '[' then bracketScan cs (i + 1) (depth + 1)
    else if c = ']' then
      if depth = 1 then some (i + 1) else bracketScan cs (i + 1) (depth - 1)
    else bracketScan cs (i + 1) depth

def strat3Arr (cs : List Char) : Option (List Json) :=
  match findSubIdx ['['] cs with
  | none => none
  | some i =>
    match bracketScan (cs.drop i) 0 0 with
    | some len => tryValidateArr ((cs.drop i).take len)
    | none => none

/-- One object item of atomizer strategy 4's regex:
`\{[\s\S]*?"id"\s*:[\s\S]*?\}` with each lazy part resolved to its
first possibility (further backtracking is not modelled).  Returns the
rest of the input after the consumed item. -/
def objItemTail : List Char → Option (List Char)
  | '{' :: rest =>
    match findSubIdx idLit rest with
    | none => none
    | some i =>
      match (rest.drop (i + idLit.length)).dropWhile isWsJS with
      | ':' :: r3 =>
        match findSubIdx ['}'] r3 with
        | none => none
        | some k => some (r3.drop (k + 1))
      | _ => none
  | _ => none

/-- After one item: `\s*` then either the closing `]` or
`,\s*` and a further item. -/
def arrPatItems : Nat → List Char → Option (List Char)
  | 0, _ => none
  | Nat.succ fuel, cs =>
    match cs.dropWhile isWsJS with
    | ']' :: rest => some rest
    | ',' :: rest =>
      match objItemTail (rest.dropWhile isWsJS) with
      | some r => arrPatItems fuel r
      | none => none
    | _ => none

/-- Does atomizer strategy 4's `arrayPattern`
`\[\s*\{[\s\S]*?"id"\s*:[\s\S]*?\}\s*(?:,\s*\{[\s\S]*?"id"\s*:[\s\S]*?\}\s*)*\]`
match at the head?  Returns the rest after the match. -/
def arrPatAt (cs : List Char) : Option (List Char) :=
  match cs with
  | '[' :: rest =>
    match objItemTail (rest.dropWhile isWsJS) with
    | some r => arrPatItems (r.length + 1) r
    | none => none
  | _ => none

/-- Leftmost `arrayPattern` match as (start index, length). -/
def findArrPatAux : List Char → Nat → Option (Nat × Nat)
  | [], _ => none
  | c :: cs, i =>
    match arrPatAt (c :: cs) with
    | some rest => some (i, (c :: cs).length - rest.length)
    | none => findArrPatAux cs (i + 1)

def findArrPat (cs : List Char) : Option (Nat × Nat) := findArrPatAux cs 0

/-- `FeatureAtomizerAgent.parseFeatures` (part_001 lines 228-297): the
four-strategy cascade for arrays of feature records. -/
def parseFeatures (output : String) : Option (List Json) :=
  let cs := output.data
  tryValidateArr (trimL cs) <|>
  (fencedArrayInner cs).bind (fun inner => tryValidateArr (trimL inner)) <|>
  strat3Arr cs <|>
  (findArrPat cs).bind (fun p => tryValidateArr ((cs.drop p.1).take p.2))

/-! ## Durable state: `Feature`, `FeatureList`, the store and the disk -/

/-- The `Feature` record of `src/types/index.ts` (the optional `type`
field is called `ftype` because `type` is a Lean keyword). -/
structure Feature where
  id : String
  title : String
  description : String
  acceptance_criteria : List String
  passes : Bool
  ftype : Option String
  target : Option String
deriving Repr, DecidableEq

structure FeatureList where
  project_name : String
  description : String
  tech_stack : Option (List String)
  features : List Feature
deriving Repr, DecidableEq

/-- The possible states of `feature_list.json` on disk: missing
(`existsSync` false), present but unreadable or unparseable (the
`readFile`/`JSON.parse` of `loadFeatureList` throws), or a parsed
list. -/
inductive StoreFile where
  | absent : StoreFile
  | corrupt : StoreFile
  | valid (fl : FeatureList) : StoreFile
deriving Repr, DecidableEq

/-- The durable workspace state the core touches: `feature_list.json`
and `progress.log` (`none` = the log file does not exist). -/
structure Disk where
  featureFile : StoreFile
  progressFile : Option String
deriving Repr, DecidableEq

/-- `ContextBuilder.loadFeatureList`: `null` when the file is missing,
and — the `catch` clause — also `null` when reading or parsing throws. -/
def loadFeatureList : StoreFile → Option FeatureList
  | StoreFile.absent => none
  | StoreFile.corrupt => none
  | StoreFile.valid fl => some fl

/-- `ContextBuilder.saveFeatureList`: overwrite the store with the
serialized list. -/
def saveFeatureList (d : Disk) (fl : FeatureList) : Disk :=
  { d with featureFile := StoreFile.valid fl }

/-- `ContextBuilder.getNextFeature` on a loaded list:
`features.find((f) => !f.passes) ?? null`. -/
def getNextFeatureL (fl : FeatureList) : Option Feature :=
  fl.features.find? (fun f => !f.passes)

/-- JS truthiness of the optional `type` field (`!f.type`): absent or
the empty string. -/
def optFalsy : Option String → Bool
  | none => true
  | some s => s == emptyStr

/-- The predicate of `ContextBuilder.getNextFeatureByType`:
`!f.passes && (f.type === type || (!f.type && type === 'feature'))`. -/
def typeMatches (f : Feature) (ty : String) : Bool :=
  !f.passes && (f.ftype == some ty || (optFalsy f.ftype && ty == "feature"))

def getNextFeatureByTypeL (fl : FeatureList) (ty : String) : Option Feature :=
  fl.features.find? (fun f => typeMatches f ty)

/-- `getNextFeature` from disk (load, then search; `null` list gives
`null`). -/
def getNextFeatureD (d : Disk) : Option Feature :=
  match loadFeatureList d.featureFile with
  | none => none
  | some fl => getNextFeatureL fl

def getNextFeatureByTypeD (d : Disk) (ty : String) : Option Feature :=
  match loadFeatureList d.featureFile with
  | none => none
  | some fl => getNextFeatureByTypeL fl ty

/-- `ContextBuilder.appendToProgressLog`: create the file with the bare
entry, or append `'\n\n' + entry` — entries end up separated by a blank
line.  (No code path of the core ever calls this method; see the C8
theorems.) -/
def appendToProgressLog (d : Disk) (entry : String) : Disk :=
  match d.progressFile with
  | none => { d with progressFile := some entry }
  | some s => { d with progressFile := some (s ++ "\n\n" ++ entry) }

/-! ## The session executor (`CodingAgent.runSession`) -/

/-- The terminal result of `runAgentQuery` (the shape
`{success, output, error?}` of §6 of the spec). -/
structure AgentResult where
  success : Bool
  output : String
  error : Option String
deriving Repr, DecidableEq

/-- How the external call ends: it either returns a terminal result or
throws (network failure, crash, ...). -/
inductive CollabBehavior where
  | throws (msg : String) : CollabBehavior
  | returns (res : AgentResult) : CollabBehavior
deriving Repr, DecidableEq

/-- The external collaborator: its terminal behaviour plus an arbitrary
effect on the durable workspace state (the external agent process may
edit `feature_list.json`, `progress.log`, or nothing at all). -/
structure Collaborator where
  behavior : CollabBehavior
  effect : Disk → Disk

structure SessionResult where
  success : Bool
  featureId : String
  commitHash : Option String
  error : Option String
  progressEntry : String
deriving Repr, DecidableEq

/-- JS `||` on the optional error string: the empty string is falsy. -/
def jsOr (o : Option String) (dflt : String) : String :=
  match o with
  | none => dflt
  | some s => if s == emptyStr then dflt else s

def errorColon : String := "ERROR: "
def errorTag : String := "ERROR"
def completedTag : String := "COMPLETED"
def incompleteTag : String := "INCOMPLETE"

/-- The shape shared by every progress entry `runSession` composes:
a bracketed timestamp, the bracketed feature id, the title, and an
outcome tail. -/
def entryStr (now fid title tail : String) : String :=
  "[" ++ now ++ "] [" ++ fid ++ "] " ++ title ++ " - " ++ tail

def noPendingMsg : String := "No pending features found. All features may be complete."
def sdkFailMsg : String := "Claude Agent SDK session failed"

/-- The post-session ground-truth re-read of `runSession` step 4:
`loadFeatureList`, find the selected feature's id, and test
`updatedFeature?.passes === true`. -/
def groundTruthPasses (d : Disk) (fid : String) : Bool :=
  match loadFeatureList d.featureFile with
  | none => false
  | some fl =>
    match fl.features.find? (fun f => f.id == fid) with
    | none => false
    | some uf => uf.passes

/-- `CodingAgent.runSession` (coding-agent.ts lines 29-133), with the
timestamp (`new Date().toISOString()`, one per session in the model)
and the best-effort `git rev-parse` result passed in as `now` and
`git`.  Steps: select the next pending feature via
`buildSessionContext` (which uses the unfiltered `getNextFeature`);
invoke the collaborator — whose effect on the disk is applied whenever
it is invoked; on a thrown error or an unsuccessful terminal result
return a failed `SessionResult`; otherwise re-read the store and define
success as the ground-truth `passes` flag.  The core itself performs no
disk write on any path. -/
def runSession (d : Disk) (c : Collaborator) (now : String) (git : Option String) :
    SessionResult × Disk :=
  match getNextFeatureD d with
  | none =>
    ({ success := false, featureId := "", commitHash := none,
       error := some noPendingMsg, progressEntry := "" }, d)
  | some feature =>
    let d1 := c.effect d
    match c.behavior with
    | CollabBehavior.throws msg =>
      ({ success := false, featureId := feature.id, commitHash := none,
         error := some msg,
         progressEntry := entryStr now feature.id feature.title (errorColon ++ msg) }, d1)
    | CollabBehavior.returns res =>
      if !res.success then
        ({ success := false, featureId := feature.id, commitHash := none,
           error := some (jsOr res.error sdkFailMsg),
           progressEntry := entryStr now feature.id feature.title errorTag }, d1)
      else
        let ok := groundTruthPasses d1 feature.id
        ({ success := ok, featureId := feature.id, commitHash := git, error := none,
           progressEntry := entryStr now feature.id feature.title
             (if ok then completedTag else incompleteTag) }, d1)

/-! ## The `loop` CLI command (part_002 lines 892-932) -/

/-- Observable outcome of a `loop` run: how many sessions were
executed (collaborator invocations), which feature ids the loop
announced (in order), the final disk, and whether the loop ended via
the "All features are complete!" break (rather than the session cap). -/
structure LoopResult where
  invocations : Nat
  selectedIds : List String
  disk : Disk
  allComplete : Bool
deriving Repr, DecidableEq

/-- The loop's per-iteration selection: `getNextFeatureByType` when a
`--type` filter is given, else `getNextFeature`. -/
def selectNext (ty? : Option String) (d : Disk) : Option Feature :=
  match ty? with
  | some ty => getNextFeatureByTypeD d ty
  | none => getNextFeatureD d

/-- The `while (session < maxSessions)` loop: `n` sessions of budget
remain, `k` sessions have been executed, `acc` holds the announced ids
in reverse.  Each iteration selects the next eligible feature (break
with `allComplete` if none), runs one session — the collaborator for
invocation `k` is `cs k` — and continues regardless of that session's
success or failure. -/
def runLoopAux (cs : Nat → Collaborator) (nows : Nat → String)
    (gits : Nat → Option String) (ty? : Option String) :
    Nat → Nat → List String → Disk → LoopResult
  | 0, k, acc, d =>
    { invocations := k, selectedIds := acc.reverse, disk := d, allComplete := false }
  | Nat.succ n, k, acc, d =>
    match selectNext ty? d with
    | none =>
      { invocations := k, selectedIds := acc.reverse, disk := d, allComplete := true }
    | some f =>
      runLoopAux cs nows gits ty? n (k + 1) (f.id :: acc)
        (runSession d (cs k) (nows k) (gits k)).2

def runLoop (cs : Nat → Collaborator) (nows : Nat → String)
    (gits : Nat → Option String) (ty? : Option String)
    (maxSessions : Nat) (d : Disk) : LoopResult :=
  runLoopAux cs nows gits ty? maxSessions 0 [] d

/-! ## The queue-append pipelines (`atomizeFeature`, `addFeature`) -/

structure AtomizerResult where
  success : Bool
  features : Option (List Json)
  error : Option String

structure AdderResult where
  success : Bool
  feature : Option Json
  error : Option String

def strOfJson : Option Json → String
  | some (Json.str s) => s
  | _ => emptyStr

def strListOfJson : Option Json → List String
  | some (Json.arr es) => es.map (fun e => strOfJson (some e))
  | _ => []

def boolOfJson : Option Json → Bool
  | some (Json.bool b) => b
  | _ => false

def optStrOfJson : Option Json → Option String
  | some (Json.str s) => some s
  | _ => none

/-- The source pushes the parsed (validated) JS object straight into
`featureList.features`; this projection renders that untyped push onto
the `Feature` record, field for field. -/
def toFeature (j : Json) : Feature :=
  { id := strOfJson (fieldOpt j idKey)
    title := strOfJson (fieldOpt j titleKey)
    description := strOfJson (fieldOpt j descKey)
    acceptance_criteria := strListOfJson (fieldOpt j acKey)
    passes := boolOfJson (fieldOpt j passesKey)
    ftype := optStrOfJson (fieldOpt j typeKey)
    target := optStrOfJson (fieldOpt j targetKey) }

/-- `existingIds.has(f.id)` (atomizer) and
`features.some((g) => g.id === feature.id)` (adder): a strict-equality
hit requires the incoming id to be a string equal to a stored id. -/
def jsonIdIsExisting (fl : FeatureList) (j : Json) : Bool :=
  match fieldOpt j idKey with
  | some (Json.str s) => fl.features.any (fun f => f.id == s)
  | _ => false

def loadFailMsg : String := "Could not load feature_list.json. Is this a valid project?"
def aiFailMsg : String := "Failed to generate. Check the debug output."
def parseFailMsg : String := "Could not parse features from AI response."
def invalidMsg : String := "invalid feature(s) generated. Check structure."
def duplicateMsg : String := "Duplicate feature IDs found."

/-- `FeatureAtomizerAgent.atomizeFeature` (part_001 lines 39-226), from
the point where the durable state matters: load the list (fail if
`null`); fail on an unsuccessful or output-less AI result; parse the
array; reject `null` or empty; reject if any element fails validation;
reject the whole batch if any incoming id collides with an existing
one; otherwise push all and save.  The debug dump the source writes to
`.harness-atomizer-debug.txt` touches neither `feature_list.json` nor
`progress.log` and is not modelled.  Error messages are abbreviated
(the source interpolates paths and counts into them). -/
def atomizeFeature (d : Disk) (ai : AgentResult) : AtomizerResult × Disk :=
  match loadFeatureList d.featureFile with
  | none => ({ success := false, features := none, error := some loadFailMsg }, d)
  | some fl =>
    if !ai.success || ai.output == emptyStr then
      ({ success := false, features := none, error := some aiFailMsg }, d)
    else
      match parseFeatures ai.output with
      | none => ({ success := false, features := none, error := some parseFailMsg }, d)
      | some features =>
        if features.isEmpty then
          ({ success := false, features := none, error := some parseFailMsg }, d)
        else
          let invalid := features.filter (fun f => !validateFeatureAtomizer f)
          if !invalid.isEmpty then
            ({ success := false, features := none, error := some invalidMsg }, d)
          else
            let duplicates := features.filter (fun f => jsonIdIsExisting fl f)
            if !duplicates.isEmpty then
              ({ success := false, features := none, error := some duplicateMsg }, d)
            else
              let fl2 := { fl with features := fl.features ++ features.map toFeature }
              ({ success := true, features := some features, error := none },
                saveFeatureList d fl2)

def parseOneFailMsg : String := "Could not parse feature from AI response."
def invalidOneMsg : String := "Generated feature is invalid or incomplete"

/-- `FeatureAdderAgent.addFeature` (part_000 lines 40-238), from the
point where the durable state matters: load, AI-result guard, parse a
single record, re-validate it, reject on an existing id, else push and
save. -/
def addFeature (d : Disk) (ai : AgentResult) : AdderResult × Disk :=
  match loadFeatureList d.featureFile with
  | none => ({ success := false, feature := none, error := some loadFailMsg }, d)
  | some fl =>
    if !ai.success || ai.output == emptyStr then
      ({ success := false, feature := none, error := some aiFailMsg }, d)
    else
      match parseFeature ai.output with
      | none => ({ success := false, feature := none, error := some parseOneFailMsg }, d)
      | some feature =>
        if !validateFeatureAdder feature then
          ({ success := false, feature := none, error := some invalidOneMsg }, d)
        else if jsonIdIsExisting fl feature then
          ({ success := false, feature := none, error := some duplicateMsg }, d)
        else
          let fl2 := { fl with features := fl.features ++ [toFeature feature] }
          ({ success := true, feature := some feature, error := none },
            saveFeatureList d fl2)

/-! ## Spec-side definitions

`specEligible` is written from the spec's words (§4.1: "the first task
in list order with `done:false` matching the filter (or any category if
no filter, treating an absent category field as the default
category)"), to be compared with the code-side `find?` predicates. -/

def specEligible (ty? : Option String) (f : Feature) : Prop :=
  f.passes = false ∧
    match ty? with
    | none => True
    | some ty => f.ftype = some ty ∨ (f.ftype = none ∧ ty = "feature")

instance (ty? : Option String) (f : Feature) : Decidable (specEligible ty? f) := by
  unfold specEligible
  cases ty? with
  | none => exact inferInstance
  | some ty => exact inferInstance

/-- The two `ContextBuilder` selectors under one name (`nextTask` in
the spec's contract of §4.1). -/
def nextTask (fl : FeatureList) (ty? : Option String) : Option Feature :=
  match ty? with
  | none => getNextFeatureL fl
  | some ty => getNextFeatureByTypeL fl ty

/-! ## Concrete scenario data -/

def nowT : String := "2024-01-01T00:00:00.000Z"

/-- A pending feature with the given id. -/
def featP (n : String) : Feature :=
  { id := n, title := "Task " ++ n, description := "desc", acceptance_criteria := ["crit"],
    passes := false, ftype := none, target := none }

/-- A completed feature with the given id. -/
def featD (n : String) : Feature :=
  { featP n with passes := true }

def mkFL (fs : List Feature) : FeatureList :=
  { project_name := "p", description := "d", tech_stack := none, features := fs }

def mkDisk (fs : List Feature) : Disk :=
  { featureFile := StoreFile.valid (mkFL fs), progressFile := some "[t0] [F000] old entry" }

def fF001 : Feature := featP ("F001")

def dOne : Disk := mkDisk [featP ("F001")]
def dTwo : Disk := mkDisk [featP ("F001"), featP ("F002")]
def dThree : Disk := mkDisk [featP ("F001"), featP ("F002"), featP ("F003")]

/-- Flip `passes` of the feature with the given id to `true` (a disk
effect only the external collaborator can perform). -/
def markDoneFL (fid : String) (fl : FeatureList) : FeatureList :=
  { fl with features :=
      fl.features.map (fun f => if f.id == fid then { f with passes := true } else f) }

def markDone (fid : String) (d : Disk) : Disk :=
  match d.featureFile with
  | StoreFile.valid fl => { d with featureFile := StoreFile.valid (markDoneFL fid fl) }
  | _ => d

/-- Reports success but writes nothing. -/
def collabLiar : Collaborator :=
  { behavior := CollabBehavior.returns { success := true, output := "done", error := none },
    effect := fun d => d }

/-- Reports an unsuccessful terminal result, but flipped the flag of
the given feature before failing. -/
def collabFlipFail (fid : String) : Collaborator :=
  { behavior := CollabBehavior.returns { success := false, output := "", error := some "boom" },
    effect := markDone fid }

/-- Completes the given feature and reports success. -/
def collabFlip (fid : String) : Collaborator :=
  { behavior := CollabBehavior.returns { success := true, output := "done", error := none },
    effect := markDone fid }

/-- The call itself throws; nothing was written. -/
def collabThrows (msg : String) : Collaborator :=
  { behavior := CollabBehavior.throws msg, effect := fun d => d }

/-- Reports failure with an error, writes nothing. -/
def collabFail : Collaborator :=
  { behavior := CollabBehavior.returns { success := false, output := "", error := some "exit 1" },
    effect := fun d => d }

/-- Session-indexed collaborator streams for the loop scenarios. -/
def csFlipBoth : Nat → Collaborator :=
  fun k => if k = 0 then collabFlip ("F001") else collabFlip ("F002")

def csFail : Nat → Collaborator := fun _ => collabFail

def csLiar : Nat → Collaborator := fun _ => collabLiar

def nowsT : Nat → String := fun _ => nowT

def gitsN : Nat → Option String := fun _ => none

/-! ## Concrete extraction inputs (the five shapes of §8) -/

/-- A minimal valid Task as raw JSON, id parameterized. -/
def minTaskStr (n : String) : String :=
  "\x7b\"id\": \"" ++ n ++
  "\", \"title\": \"Add login\", \"description\": \"Implement login\", " ++
  "\"acceptance_criteria\": [\"Works\"], \"passes\": false\x7d"

/-- The parsed value the extractor recovers for `minTaskStr n`. -/
def minTaskJson (n : String) : Json :=
  Json.obj [(idKey, Json.str n), (titleKey, Json.str ("Add login")),
    (descKey, Json.str ("Implement login")),
    (acKey, Json.arr [Json.str ("Works")]),
    (passesKey, Json.bool false)]

/-- Shape 1: the raw JSON alone. -/
def shape1 : String := minTaskStr ("F001")

/-- Shape 2: a fenced code block. -/
def shape2 : String := "```json\n" ++ minTaskStr ("F001") ++ "\n```"

/-- Shape 3: prose-prefixed JSON. -/
def shape3 : String :=
  "Here is the feature:\n\n" ++ minTaskStr ("F001") ++
  "\nLet me know if you need anything else."

/-- Shape 4: prose-prefixed multi-line JSON with (balanced) brace
characters inside string values — the known-fragile case for the
string-blind depth counter. -/
def shape4 : String :=
  "Sure! Here is the new feature:\n\x7b\n  \"id\": \"F002\",\n  \"title\": " ++
  "\"Render braces\",\n  \"description\": \"Show \x7bcurly\x7d braces in output\",\n  " ++
  "\"acceptance_criteria\": [\n    \"Displays \x7bx\x7d correctly\"\n  ],\n  " ++
  "\"passes\": false\n\x7d\nDone."

/-- The value recovered from shape 4. -/
def shape4Json : Json :=
  Json.obj [(idKey, Json.str ("F002")), (titleKey, Json.str ("Render braces")),
    (descKey, Json.str ("Show \x7bcurly\x7d braces in output")),
    (acKey, Json.arr [Json.str ("Displays \x7bx\x7d correctly")]),
    (passesKey, Json.bool false)]

/-- Shape 5: an array of two task objects. -/
def shape5 : String := "[" ++ minTaskStr ("F003") ++ ", " ++ minTaskStr ("F004") ++ "]"

/-- Atomizer output whose batch collides with an existing id (for the
duplicate-rejection witness): a valid two-element array re-using id
`F001`. -/
def dupBatchAI : AgentResult :=
  { success := true,
    output := "[" ++ minTaskStr ("F001") ++ ", " ++ minTaskStr ("F777") ++ "]",
    error := none }

/-- Adder output colliding with an existing id. -/
def dupOneAI : AgentResult :=
  { success := true, output := minTaskStr ("F001"), error := none }

/-- The Boolean selection predicate the code uses, by filter. -/
def nextPred (ty? : Option String) : Feature → Bool :=
  match ty? with
  | none => fun f => !f.passes
  | some ty => fun f => typeMatches f ty

/-! ## Helper lemmas -/

theorem orElse_eq_some {α : Type} {a b : Option α} {x : α}
    (h : (a <|> b) = some x) : a = some x ∨ (a = none ∧ b = some x) := by
  cases a with
  | none =>
    right
    refine ⟨rfl, ?_⟩
    simpa [Option.orElse] using h
  | some y =>
    left
    simpa [Option.orElse] using h

theorem tryValidateAdder_valid {t : List Char} {j : Json}
    (h : tryValidateAdder t = some j) : validateFeatureAdder j = true := by
  unfold tryValidateAdder at h
  cases hp : jsonParseL t with
  | none => rw [hp] at h; cases h
  | some j2 =>
    rw [hp] at h
    by_cases hv : validateFeatureAdder j2
    · simp only [hv, if_true, Option.some.injEq] at h
      rw [← h]; exact hv
    · simp [hv] at h

theorem firstValidAdder_valid :
    ∀ {ts : List (List Char)} {j : Json},
      firstValidAdder ts = some j → validateFeatureAdder j = true := by
  intro ts
  induction ts with
  | nil => intro j h; cases h
  | cons t ts ih =>
    intro j h
    unfold firstValidAdder at h
    cases ht : tryValidateAdder t with
    | none => rw [ht] at h; exact ih h
    | some j2 =>
      rw [ht] at h
      cases h
      exact tryValidateAdder_valid ht

theorem strat3_valid {cs : List Char} {j : Json}
    (h : strat3 cs = some j) : validateFeatureAdder j = true := by
  unfold strat3 at h
  cases h1 : findFeatureStart cs with
  | none => rw [h1] at h; cases h
  | some s =>
    rw [h1] at h
    dsimp only at h
    cases h2 : braceScan (cs.drop s) 0 0 with
    | none => rw [h2] at h; cases h
    | some e => rw [h2] at h; exact tryValidateAdder_valid h

theorem strat4_valid {cs : List Char} {j : Json}
    (h : strat4 cs = some j) : validateFeatureAdder j = true := by
  unfold strat4 at h
  cases h1 : scanLinesS4 (splitOnNL cs) 0 none 0 with
  | none => simp only [h1] at h; cases h
  | some p =>
    simp only [h1] at h
    exact tryValidateAdder_valid h

theorem strat5_valid {cs : List Char} {j : Json}
    (h : strat5 cs = some j) : validateFeatureAdder j = true := by
  unfold strat5 at h
  exact firstValidAdder_valid h

/-- Every strategy of `parseFeature` gates its candidate through
`validateFeature`. -/
theorem parseFeature_valid {out : String} {j : Json}
    (h : parseFeature out = some j) : validateFeatureAdder j = true := by
  unfold parseFeature at h
  rcases orElse_eq_some h with h1 | ⟨_, h⟩
  · exact tryValidateAdder_valid h1
  rcases orElse_eq_some h with h2 | ⟨_, h⟩
  · rcases Option.bind_eq_some.mp h2 with ⟨inner, _, hin⟩
    exact tryValidateAdder_valid hin
  rcases orElse_eq_some h with h3 | ⟨_, h⟩
  · exact strat3_valid h3
  rcases orElse_eq_some h with h4 | ⟨_, h5⟩
  · exact strat4_valid h4
  · exact strat5_valid h5

theorem tryValidateArr_valid {t : List Char} {fs : List Json}
    (h : tryValidateArr t = some fs) :
    ∀ j ∈ fs, validateFeatureAtomizer j = true := by
  unfold tryValidateArr at h
  cases hp : jsonParseL t with
  | none => rw [hp] at h; cases h
  | some v =>
    rw [hp] at h
    cases v with
    | arr es =>
      by_cases ha : es.all validateFeatureAtomizer
      · simp only [ha, if_true, Option.some.injEq] at h
        rw [← h]
        exact List.all_eq_true.mp ha
      · simp [ha] at h
    | null => cases h
    | bool b => cases h
    | num l => cases h
    | str s => cases h
    | obj f => cases h

theorem strat3Arr_valid {cs : List Char} {fs : List Json}
    (h : strat3Arr cs = some fs) : ∀ j ∈ fs, validateFeatureAtomizer j = true := by
  unfold strat3Arr at h
  cases h1 : findSubIdx ['['] cs with
  | none => rw [h1] at h; cases h
  | some i =>
    rw [h1] at h
    dsimp only at h
    cases h2 : bracketScan (cs.drop i) 0 0 with
    | none => rw [h2] at h; cases h
    | some len => rw [h2] at h; exact tryValidateArr_valid h

/-- Every strategy of `parseFeatures` validates every element of its
candidate array. -/
theorem parseFeatures_valid {out : String} {fs : List Json}
    (h : parseFeatures out = some fs) :
    ∀ j ∈ fs, validateFeatureAtomizer j = true := by
  unfold parseFeatures at h
  rcases orElse_eq_some h with h1 | ⟨_, h⟩
  · exact tryValidateArr_valid h1
  rcases orElse_eq_some h with h2 | ⟨_, h⟩
  · rcases Option.bind_eq_some.mp h2 with ⟨inner, _, hin⟩
    exact tryValidateArr_valid hin
  rcases orElse_eq_some h with h3 | ⟨_, h4⟩
  · exact strat3Arr_valid h3
  · rcases Option.bind_eq_some.mp h4 with ⟨p, _, hp⟩
    exact tryValidateArr_valid hp

/-- What the adder's `validateFeature` guarantees, spelled out field by
field. -/
theorem validateAdder_props {j : Json} (h : validateFeatureAdder j = true) :
    (∃ flds, j = Json.obj flds) ∧
    truthyField j idKey = true ∧ truthyField j titleKey = true ∧
    truthyField j descKey = true ∧
    (∃ es, fieldOpt j acKey = some (Json.arr es) ∧ es ≠ []) ∧
    (∃ b, fieldOpt j passesKey = some (Json.bool b)) := by
  cases j with
  | obj flds =>
    unfold validateFeatureAdder at h
    simp only [Bool.and_eq_true] at h
    obtain ⟨⟨⟨⟨⟨⟨hid, htitle⟩, hdesc⟩, hac⟩, harr⟩, hnon⟩, hbool⟩ := h
    refine ⟨⟨flds, rfl⟩, hid, htitle, hdesc, ?_, ?_⟩
    · cases hf : fieldOpt (Json.obj flds) acKey with
      | none => rw [hf] at harr; cases harr
      | some v =>
        cases v with
        | arr es =>
          refine ⟨es, rfl, ?_⟩
          rw [hf] at hnon
          unfold isNonEmptyArr at hnon
          simpa using hnon
        | null => rw [hf] at harr; cases harr
        | bool b => rw [hf] at harr; cases harr
        | num l => rw [hf] at harr; cases harr
        | str s => rw [hf] at harr; cases harr
        | obj f2 => rw [hf] at harr; cases harr
    · cases hf : fieldOpt (Json.obj flds) passesKey with
      | none => rw [hf] at hbool; cases hbool
      | some v =>
        cases v with
        | bool b => exact ⟨b, rfl⟩
        | null => rw [hf] at hbool; cases hbool
        | num l => rw [hf] at hbool; cases hbool
        | str s => rw [hf] at hbool; cases hbool
        | arr es => rw [hf] at hbool; cases hbool
        | obj f2 => rw [hf] at hbool; cases hbool
  | null => cases h
  | bool b => cases h
  | num l => cases h
  | str s => cases h
  | arr es => cases h

/-- The two validators are extensionally the same predicate (the
atomizer's extra `typeof === 'object'` guard rejects exactly the values
the adder's field accesses already reject). -/
theorem validators_agree (j : Json) :
    validateFeatureAtomizer j = validateFeatureAdder j := by
  cases j <;> rfl

/-- `List.find?` returns the element at the first index whose predicate
holds. -/
theorem find?_first_spec {α : Type} (p : α → Bool) :
    ∀ (l : List α) (a : α), l.find? p = some a →
      ∃ i, ∃ h : i < l.length, l.get ⟨i, h⟩ = a ∧ p a = true ∧
        ∀ j, ∀ hj : j < l.length, j < i → p (l.get ⟨j, hj⟩) = false := by
  intro l
  induction l with
  | nil => intro a h; cases h
  | cons b l ih =>
    intro a h
    by_cases hb : p b
    · simp only [List.find?_cons, hb, Option.some.injEq] at h
      subst h
      refine ⟨0, Nat.succ_pos _, rfl, hb, ?_⟩
      intro j hj hj0
      omega
    · simp only [List.find?_cons, Bool.not_eq_true] at hb
      simp only [List.find?_cons, hb] at h
      obtain ⟨i, hi, hget, hpa, hprev⟩ := ih a h
      refine ⟨i + 1, Nat.succ_lt_succ hi, by simpa using hget, hpa, ?_⟩
      intro j hj hji
      cases j with
      | zero => simpa using hb
      | succ j2 =>
        have hj2 : j2 < l.length := Nat.lt_of_succ_lt_succ hj
        have := hprev j2 hj2 (Nat.lt_of_succ_lt_succ hji)
        simpa using this

/-- `List.find?` returning `none` means no element satisfies the
predicate. -/
theorem find?_none_spec {α : Type} (p : α → Bool) :
    ∀ (l : List α), l.find? p = none → ∀ a ∈ l, p a = false := by
  intro l
  induction l with
  | nil => intro _ a ha; cases ha
  | cons b l ih =>
    intro h a ha
    by_cases hb : p b
    · simp [List.find?_cons, hb] at h
    · simp only [Bool.not_eq_true] at hb
      simp only [List.find?_cons, hb] at h
      rcases List.mem_cons.mp ha with rfl | hmem
      · exact hb
      · exact ih h a hmem

/-- A prefix on which the predicate is everywhere false does not change
the result of `find?`. -/
theorem find?_append_false {α : Type} (p : α → Bool) :
    ∀ (l1 l2 : List α), (∀ a ∈ l1, p a = false) →
      (l1 ++ l2).find? p = l2.find? p := by
  intro l1
  induction l1 with
  | nil => intro l2 _; rfl
  | cons b l1 ih =>
    intro l2 hall
    have hb : p b = false := hall b (List.mem_cons_self b l1)
    simp only [List.cons_append, List.find?_cons, hb]
    exact ih l2 (fun a ha => hall a (List.mem_cons_of_mem b ha))

/-- On features whose `type` tag is not the empty string, the code's
selection predicate coincides with the spec's eligibility predicate. -/
theorem nextPred_iff_specEligible (ty? : Option String) (f : Feature)
    (hf : f.ftype ≠ some emptyStr) :
    nextPred ty? f = true ↔ specEligible ty? f := by
  cases ty? with
  | none =>
    simp [nextPred, specEligible, Bool.not_eq_true']
  | some ty =>
    simp only [nextPred, typeMatches, specEligible, Bool.and_eq_true,
      Bool.or_eq_true, Bool.not_eq_true', beq_iff_eq]
    cases hft : f.ftype with
    | none =>
      simp [optFalsy]
    | some s =>
      have hs : s ≠ emptyStr := by
        intro hcon
        exact hf (by rw [hft, hcon])
      simp [optFalsy, hs]

/-- The session counter of the loop never exceeds the remaining
budget. -/
theorem runLoopAux_invocations_le (cs : Nat → Collaborator) (nows : Nat → String)
    (gits : Nat → Option String) (ty? : Option String) :
    ∀ (n k : Nat) (acc : List String) (d : Disk),
      (runLoopAux cs nows gits ty? n k acc d).invocations ≤ k + n := by
  intro n
  induction n with
  | zero => intro k acc d; simp [runLoopAux]
  | succ n ih =>
    intro k acc d
    unfold runLoopAux
    cases h : selectNext ty? d with
    | none => dsimp only; omega
    | some f =>
      dsimp only
      have := ih (k + 1) (f.id :: acc) (runSession d (cs k) (nows k) (gits k)).2
      omega

/-! ## Claim theorems -/

/-- C9 counterexample: a store that exists but cannot be read or parsed
(`StoreFile.corrupt`) yields from `loadFeatureList` the very same
`null` as a genuinely missing store — the failure is masked, not
propagated, and the "not found" signal is not distinct. -/
theorem C9_counterexample :
    loadFeatureList StoreFile.corrupt = none ∧
    loadFeatureList StoreFile.absent = none :=
  ⟨rfl, rfl⟩

/-- C9 (amended): `ContextBuilder.loadFeatureList` returns the parsed
Task List when the store is valid, and returns the same `null` both
when the store is missing and when reading/parsing it fails (the
`catch` clause masks the failure); consequently a corrupt store is
indistinguishable from an empty queue to `getNextFeature`. -/
theorem C9_load_masks_failures :
    (∀ fl, loadFeatureList (StoreFile.valid fl) = some fl) ∧
    loadFeatureList StoreFile.corrupt = loadFeatureList StoreFile.absent ∧
    (∀ p, getNextFeatureD { featureFile := StoreFile.corrupt, progressFile := p } = none) :=
  ⟨fun _ => rfl, rfl, fun _ => rfl⟩

/-- C10: on every code path of `runSession` the core itself never
writes the durable state: the post-session disk is either the
pre-session disk (empty-queue path, collaborator not invoked) or
exactly what the collaborator's own effect produced; in particular a
session whose collaborator writes nothing leaves the disk — and hence
`feature_list.json` — exactly as it was. -/
theorem C10_core_never_writes (d : Disk) (c : Collaborator) (now : String)
    (git : Option String) :
    ((runSession d c now git).2 = d ∨ (runSession d c now git).2 = c.effect d) ∧
    ((∀ x, c.effect x = x) → (runSession d c now git).2 = d) := by
  constructor
  · unfold runSession
    cases h : getNextFeatureD d with
    | none => left; rfl
    | some f =>
      dsimp only
      cases c.behavior with
      | throws msg => right; rfl
      | returns res =>
        by_cases hs : res.success
        · right; simp [hs]
        · right; simp [hs]
  · intro heff
    unfold runSession
    cases h : getNextFeatureD d with
    | none => rfl
    | some f =>
      dsimp only
      cases c.behavior with
      | throws msg => exact heff d
      | returns res =>
        by_cases hs : res.success
        · simp [hs, heff d]
        · simp [hs, heff d]

/-- C10 witness: a concrete session with a collaborator that writes
nothing leaves the disk untouched. -/
theorem C10_witness : (runSession dOne collabLiar nowT none).2 = dOne :=
  (C10_core_never_writes dOne collabLiar nowT none).2 (fun _ => rfl)

/-- C7: when the collaborator call throws, or returns an unsuccessful
terminal result, `runSession` reports a failed session with the
underlying error in the `error` field (a thrown message verbatim; a
returned non-empty error string verbatim, with a fixed fallback when
the collaborator supplied none), and the disk holds exactly what the
collaborator's own effect left — the core wrote nothing to the Task
Store. -/
theorem C7_collaborator_failure (d : Disk) (c : Collaborator) (now : String)
    (git : Option String) (f : Feature) (h : getNextFeatureD d = some f) :
    (∀ msg, c.behavior = CollabBehavior.throws msg →
      (runSession d c now git).1.success = false ∧
      (runSession d c now git).1.error = some msg ∧
      (runSession d c now git).2 = c.effect d) ∧
    (∀ res, c.behavior = CollabBehavior.returns res → res.success = false →
      (runSession d c now git).1.success = false ∧
      (runSession d c now git).1.error = some (jsOr res.error sdkFailMsg) ∧
      (∀ e, res.error = some e → e ≠ emptyStr →
        (runSession d c now git).1.error = some e) ∧
      (runSession d c now git).2 = c.effect d) := by
  unfold runSession
  rw [h]
  dsimp only
  constructor
  · intro msg hb
    rw [hb]
    exact ⟨rfl, rfl, rfl⟩
  · intro res hb hs
    rw [hb]
    simp only [hs, Bool.not_false, if_true]
    refine ⟨trivial, trivial, ?_, trivial⟩
    intro e he hne
    rw [he]
    simp [jsOr, hne]

/-- C7 witness: a thrown transport error surfaces verbatim. -/
theorem C7_witness :
    (runSession dOne (collabThrows ("net down")) nowT none).1.error = some ("net down") :=
  ((C7_collaborator_failure dOne (collabThrows ("net down")) nowT none fF001
      rfl).1 ("net down") rfl).2.1

/-- C1 counterexample to the claim's "if and only if": a collaborator
that reports an unsuccessful terminal result but did flip the selected
task's `passes` flag — after the session the durable store shows
`passes = true`, yet `runSession` reports failure, because on a
collaborator-reported failure the executor returns early without the
ground-truth re-read. -/
theorem C1_counterexample :
    (runSession dOne (collabFlipFail ("F001")) nowT none).1.success = false ∧
    groundTruthPasses (runSession dOne (collabFlipFail ("F001")) nowT none).2
      (fF001.id) = true :=
  ⟨rfl, rfl⟩

/-- C1 (amended): for a session with a selected task, the reported
success is true iff the collaborator returned a successful terminal
result AND the post-session re-read of the Task Store shows the
selected task's `passes` flag true.  Self-reported success alone never
suffices (the ground-truth conjunct is required); but a self-reported
failure short-circuits the session to a failure without the re-read. -/
theorem C1_ground_truth_success (d : Disk) (c : Collaborator) (now : String)
    (git : Option String) (f : Feature) (h : getNextFeatureD d = some f) :
    (runSession d c now git).1.success = true ↔
      (∃ res, c.behavior = CollabBehavior.returns res ∧ res.success = true ∧
        groundTruthPasses (c.effect d) f.id = true) := by
  unfold runSession
  rw [h]
  dsimp only
  cases hb : c.behavior with
  | throws msg =>
    dsimp only
    constructor
    · intro hfalse; cases hfalse
    · rintro ⟨res, hres, -, -⟩; cases hres
  | returns res =>
    by_cases hs : res.success
    · simp only [hs, Bool.not_true, if_false]
      constructor
      · intro hgt; exact ⟨res, rfl, hs, hgt⟩
      · rintro ⟨res2, hres2, -, hgt⟩
        exact hgt
    · simp only [Bool.not_eq_true] at hs
      simp only [hs, Bool.not_false, if_true]
      constructor
      · intro hfalse; cases hfalse
      · rintro ⟨res2, hres2, hsucc, -⟩
        injection hres2 with he
        subst he
        rw [hs] at hsucc
        cases hsucc

/-- C1 witness (the claim's two-task scenario): one session against a
two-task queue whose collaborator reports success but never flips the
flag is reported as a failure — the ground-truth re-read wins over the
self-report. -/
theorem C1_witness : (runSession dTwo collabLiar nowT none).1.success = false := by
  have h := C1_ground_truth_success dTwo collabLiar nowT none fF001 rfl
  cases hs : (runSession dTwo collabLiar nowT none).1.success
  · rfl
  · exfalso
    obtain ⟨res, hres, hsucc, hgt⟩ := h.mp hs
    exact absurd hgt (by decide)

/-- C8 counterexample: a full session runs against a two-task queue
(the session works on `F001`), yet the Progress Journal on disk is
byte-for-byte unchanged — the core appended no entry; it only composed
the entry text inside the returned `SessionResult`, and no caller in
the repository (in particular not the `loop` command) ever writes it to
`progress.log`. -/
theorem C8_counterexample :
    (runSession dTwo collabLiar nowT none).1.featureId = fF001.id ∧
    (runSession dTwo collabLiar nowT none).1.progressEntry ≠ emptyStr ∧
    (runSession dTwo collabLiar nowT none).2.progressFile = dTwo.progressFile := by
  exact ⟨rfl, by decide, rfl⟩

/-- C8 (amended): after every session with a selected task the core
composes exactly one timestamped entry — returned in the
`progressEntry` field, not written to disk — beginning with the
bracketed ISO timestamp and the bracketed task id and ending in a
COMPLETED/INCOMPLETE/ERROR outcome; `appendToProgressLog` would
separate entries with a blank line, but no core path invokes it, so the
session leaves `progress.log` exactly as the collaborator's own effect
left it. -/
theorem C8_entry_composed_not_appended (d : Disk) (c : Collaborator) (now : String)
    (git : Option String) (f : Feature) (h : getNextFeatureD d = some f) :
    (∃ t, (runSession d c now git).1.progressEntry =
        "[" ++ now ++ "] [" ++ f.id ++ "] " ++ f.title ++ " - " ++ t ∧
      (t = completedTag ∨ t = incompleteTag ∨ t = errorTag ∨ ∃ m, t = errorColon ++ m)) ∧
    (runSession d c now git).2.progressFile = (c.effect d).progressFile ∧
    (∀ d2 e, (appendToProgressLog d2 e).progressFile =
      some (match d2.progressFile with | none => e | some s => s ++ "\n\n" ++ e)) := by
  refine ⟨?_, ?_, ?_⟩
  · unfold runSession
    rw [h]
    dsimp only
    cases c.behavior with
    | throws msg =>
      exact ⟨errorColon ++ msg, rfl, Or.inr (Or.inr (Or.inr ⟨msg, rfl⟩))⟩
    | returns res =>
      by_cases hs : res.success
      · simp only [hs, Bool.not_true, if_false]
        by_cases hgt : groundTruthPasses (c.effect d) f.id
        · exact ⟨completedTag, by simp [entryStr, hgt], Or.inl rfl⟩
        · simp only [Bool.not_eq_true] at hgt
          exact ⟨incompleteTag, by simp [entryStr, hgt], Or.inr (Or.inl rfl)⟩
      · simp only [Bool.not_eq_true] at hs
        simp only [hs, Bool.not_false, if_true]
        exact ⟨errorTag, rfl, Or.inr (Or.inr (Or.inl rfl))⟩
  · unfold runSession
    rw [h]
    dsimp only
    cases c.behavior with
    | throws msg => rfl
    | returns res =>
      by_cases hs : res.success
      · simp [hs]
      · simp [hs]
  · intro d2 e
    cases hp : d2.progressFile with
    | none => simp [appendToProgressLog, hp]
    | some s => simp [appendToProgressLog, hp]

/-- C8 witness: concrete instance of the frame part — the progress file
after a failed session equals what the (write-nothing) collaborator
left. -/
theorem C8_witness :
    (runSession dOne collabFail nowT none).2.progressFile =
      (collabFail.effect dOne).progressFile :=
  (C8_entry_composed_not_appended dOne collabFail nowT none fF001 rfl).2.1

/-- C2: `nextTask` (`getNextFeature` with no filter,
`getNextFeatureByType` with one) returns the earliest task in list
order that is pending (`passes = false`) and matches the filter — a
task with an absent category field counting as the default category
`feature` when a filter is given, and any category matching when none
is — or `none` when no such task exists; and the result is unchanged by
any prefix of completed tasks.  (The hypothesis excludes the
JS-truthiness corner of an empty-string `type` tag, a value outside the
`FeatureType` union.) -/
theorem C2_nextTask_first_eligible (fl : FeatureList) (ty? : Option String)
    (hclean : ∀ f ∈ fl.features, f.ftype ≠ some emptyStr) :
    (∀ f, nextTask fl ty? = some f →
      ∃ i, ∃ h : i < fl.features.length,
        fl.features.get ⟨i, h⟩ = f ∧ specEligible ty? f ∧
        ∀ j, ∀ hj : j < fl.features.length, j < i →
          ¬ specEligible ty? (fl.features.get ⟨j, hj⟩)) ∧
    (nextTask fl ty? = none → ∀ f ∈ fl.features, ¬ specEligible ty? f) ∧
    (∀ base : FeatureList, ∀ pre rest : List Feature,
      (∀ f ∈ pre, f.passes = true) →
      nextTask { base with features := pre ++ rest } ty? =
        nextTask { base with features := rest } ty?) := by
  have heq : ∀ (l : FeatureList), nextTask l ty? = l.features.find? (nextPred ty?) := by
    intro l
    cases ty? <;> rfl
  refine ⟨?_, ?_, ?_⟩
  · intro f hf
    rw [heq] at hf
    obtain ⟨i, hi, hget, hpf, hprev⟩ := find?_first_spec _ _ _ hf
    have hfmem : f ∈ fl.features := hget ▸ fl.features.get_mem i hi
    refine ⟨i, hi, hget, (nextPred_iff_specEligible ty? f (hclean f hfmem)).mp hpf, ?_⟩
    intro j hj hji hspec
    have hmemj : fl.features.get ⟨j, hj⟩ ∈ fl.features := fl.features.get_mem j hj
    have htrue := (nextPred_iff_specEligible ty? _ (hclean _ hmemj)).mpr hspec
    rw [hprev j hj hji] at htrue
    cases htrue
  · intro hnone f hmem hspec
    rw [heq] at hnone
    have hfalse := find?_none_spec _ _ hnone f hmem
    have htrue := (nextPred_iff_specEligible ty? f (hclean f hmem)).mpr hspec
    rw [hfalse] at htrue
    cases htrue
  · intro base pre rest hall
    rw [heq, heq]
    dsimp only
    apply find?_append_false
    intro a ha
    have hpa := hall a ha
    cases ty? with
    | none => simp [nextPred, hpa]
    | some ty => simp [nextPred, typeMatches, hpa]

/-- C2 witness: in a list whose first task is already completed, the
selector skips it and returns the later pending task, with the full
earliest-eligible characterization instantiated. -/
theorem C2_witness :
    ∃ i, ∃ h : i < (mkFL [featD ("F000"), featP ("F001")]).features.length,
      (mkFL [featD ("F000"), featP ("F001")]).features.get ⟨i, h⟩ = featP ("F001") ∧
      specEligible none (featP ("F001")) ∧
      ∀ j, ∀ hj : j < (mkFL [featD ("F000"), featP ("F001")]).features.length, j < i →
        ¬ specEligible none ((mkFL [featD ("F000"), featP ("F001")]).features.get ⟨j, hj⟩) :=
  (C2_nextTask_first_eligible (mkFL [featD ("F000"), featP ("F001")]) none
    (by decide)).1 (featP ("F001")) rfl

/-- C6: the `loop` command (i) executes at most `maxSessions` sessions;
(ii) breaks — without invoking the collaborator again — as soon as no
eligible pending task remains; (iii) on a selected task it runs exactly
one session and proceeds to the next iteration regardless of that
session's outcome; (iv) with `maxSessions = 1` against a three-task
queue exactly one session runs; (v) a persistently failing collaborator
consumes the whole budget instead of halting the loop; (vi) in the
two-task end-to-end scenario with `maxSessions = 5` and two successful
sessions, the loop selects `F001` then `F002` in order, finishes with
the complete-break, and the collaborator is invoked exactly twice —
never a third time. -/
theorem C6_loop_bounded_in_order :
    (∀ cs nows gits ty? n d, (runLoop cs nows gits ty? n d).invocations ≤ n) ∧
    (∀ cs nows gits ty? n k acc d, selectNext ty? d = none →
      runLoopAux cs nows gits ty? (n + 1) k acc d =
        { invocations := k, selectedIds := acc.reverse, disk := d, allComplete := true }) ∧
    (∀ cs nows gits ty? n k acc d f, selectNext ty? d = some f →
      runLoopAux cs nows gits ty? (n + 1) k acc d =
        runLoopAux cs nows gits ty? n (k + 1) (f.id :: acc)
          (runSession d (cs k) (nows k) (gits k)).2) ∧
    (runLoop csLiar nowsT gitsN none 1 dThree).invocations = 1 ∧
    ((runLoop csFail nowsT gitsN none 3 dOne).invocations = 3 ∧
      (runLoop csFail nowsT gitsN none 3 dOne).allComplete = false) ∧
    ((runLoop csFlipBoth nowsT gitsN none 5 dTwo).invocations = 2 ∧
      (runLoop csFlipBoth nowsT gitsN none 5 dTwo).selectedIds = [fF001.id, "F002"] ∧
      (runLoop csFlipBoth nowsT gitsN none 5 dTwo).allComplete = true) := by
  refine ⟨?_, ?_, ?_, by decide, ⟨by decide, by decide⟩, ⟨by decide, by decide, by decide⟩⟩
  · intro cs nows gits ty? n d
    simpa [runLoop] using runLoopAux_invocations_le cs nows gits ty? n 0 [] d
  · intro cs nows gits ty? n k acc d h
    unfold runLoopAux
    rw [h]
  · intro cs nows gits ty? n k acc d f h
    conv_lhs => rw [runLoopAux]
    rw [h]

/-- C6 witness: on an exhausted queue the loop breaks immediately with
zero collaborator invocations. -/
theorem C6_witness :
    runLoopAux csLiar nowsT gitsN none 1 0 [] (mkDisk []) =
      { invocations := 0, selectedIds := [], disk := mkDisk [], allComplete := true } :=
  C6_loop_bounded_in_order.2.1 csLiar nowsT gitsN none 0 0 [] (mkDisk []) rfl

/-- C3: if any record of the incoming batch carries an id that already
exists in the stored Task List, the whole append fails — the atomizer
for a batch, the adder for a single record — and the durable store is
returned unchanged: no subset of the batch is applied. -/
theorem C3_duplicate_batch_all_or_nothing :
    (∀ d ai fl fs j s, loadFeatureList d.featureFile = some fl →
      parseFeatures ai.output = some fs → j ∈ fs →
      fieldOpt j idKey = some (Json.str s) → (∃ g ∈ fl.features, g.id = s) →
      (atomizeFeature d ai).1.success = false ∧ (atomizeFeature d ai).2 = d) ∧
    (∀ d ai fl j s, loadFeatureList d.featureFile = some fl →
      parseFeature ai.output = some j →
      fieldOpt j idKey = some (Json.str s) → (∃ g ∈ fl.features, g.id = s) →
      (addFeature d ai).1.success = false ∧ (addFeature d ai).2 = d) := by
  constructor
  · intro d ai fl fs j s hload hparse hmem hid hex
    have hdup : jsonIdIsExisting fl j = true := by
      unfold jsonIdIsExisting
      rw [hid]
      obtain ⟨g, hgmem, hgid⟩ := hex
      exact List.any_eq_true.mpr ⟨g, hgmem, by simp [hgid]⟩
    unfold atomizeFeature
    rw [hload]
    dsimp only
    by_cases hguard : (!ai.success || ai.output == emptyStr) = true
    · simp only [hguard, if_true]
      exact ⟨by trivial, by trivial⟩
    · rw [Bool.not_eq_true] at hguard
      simp only [hguard, if_false]
      rw [hparse]
      dsimp only
      have hne : fs.isEmpty = false := by
        cases fs with
        | nil => cases hmem
        | cons a l => rfl
      simp only [hne, if_false]
      by_cases hinv : (fs.filter (fun f => !validateFeatureAtomizer f)).isEmpty
      · simp only [hinv, Bool.not_true, if_false]
        have hjdup : j ∈ fs.filter (fun f => jsonIdIsExisting fl f) :=
          List.mem_filter.mpr ⟨hmem, hdup⟩
        have hdne : (fs.filter (fun f => jsonIdIsExisting fl f)).isEmpty = false := by
          cases hfil : fs.filter (fun f => jsonIdIsExisting fl f) with
          | nil => rw [hfil] at hjdup; cases hjdup
          | cons a l => rfl
        simp only [hdne, Bool.not_false, if_true]
        exact ⟨by trivial, by trivial⟩
      · rw [Bool.not_eq_true] at hinv
        simp only [hinv, Bool.not_false, if_true]
        exact ⟨by trivial, by trivial⟩
  · intro d ai fl j s hload hparse hid hex
    have hdup : jsonIdIsExisting fl j = true := by
      unfold jsonIdIsExisting
      rw [hid]
      obtain ⟨g, hgmem, hgid⟩ := hex
      exact List.any_eq_true.mpr ⟨g, hgmem, by simp [hgid]⟩
    unfold addFeature
    rw [hload]
    dsimp only
    by_cases hguard : (!ai.success || ai.output == emptyStr) = true
    · simp only [hguard, if_true]
      exact ⟨by trivial, by trivial⟩
    · rw [Bool.not_eq_true] at hguard
      simp only [hguard, if_false]
      rw [hparse]
      dsimp only
      simp only [parseFeature_valid hparse, Bool.not_true, if_false, hdup, if_true]
      exact ⟨by trivial, by trivial⟩

/-- C3 witness: a concrete valid two-record batch whose first id
(`F001`) already exists in the store is rejected wholesale and the
store is unchanged. -/
theorem C3_witness :
    (atomizeFeature dOne dupBatchAI).1.success = false ∧
    (atomizeFeature dOne dupBatchAI).2 = dOne :=
  C3_duplicate_batch_all_or_nothing.1 dOne dupBatchAI (mkFL [featP ("F001")])
    [minTaskJson ("F001"), minTaskJson ("F777")] (minTaskJson ("F001")) ("F001")
    rfl rfl (List.mem_cons_self _ _) rfl ⟨featP ("F001"), List.mem_cons_self _ _, rfl⟩

/-- C4: on any input text, neither extractor ever returns a record that
is not an object, or whose `acceptance_criteria` is missing, not an
array, or empty, or that lacks a (truthy) `id`, `title` or
`description`, or whose `passes` is not a boolean — a parseable object
failing the validation predicate is never accepted. -/
theorem C4_only_validated_records :
    (∀ out j, parseFeature out = some j →
      (∃ flds, j = Json.obj flds) ∧
      truthyField j idKey = true ∧ truthyField j titleKey = true ∧
      truthyField j descKey = true ∧
      (∃ es, fieldOpt j acKey = some (Json.arr es) ∧ es ≠ []) ∧
      (∃ b, fieldOpt j passesKey = some (Json.bool b))) ∧
    (∀ out fs, parseFeatures out = some fs → ∀ j ∈ fs,
      (∃ flds, j = Json.obj flds) ∧
      truthyField j idKey = true ∧ truthyField j titleKey = true ∧
      truthyField j descKey = true ∧
      (∃ es, fieldOpt j acKey = some (Json.arr es) ∧ es ≠ []) ∧
      (∃ b, fieldOpt j passesKey = some (Json.bool b))) := by
  constructor
  · intro out j h
    exact validateAdder_props (parseFeature_valid h)
  · intro out fs h j hj
    have hv := parseFeatures_valid h j hj
    rw [validators_agree] at hv
    exact validateAdder_props hv

/-- C4 witness: the record recovered from the raw-JSON shape indeed
carries a non-empty criteria array. -/
theorem C4_witness :
    ∃ es, fieldOpt (minTaskJson ("F001")) acKey = some (Json.arr es) ∧ es ≠ [] :=
  (C4_only_validated_records.1 shape1 (minTaskJson ("F001")) rfl).2.2.2.2.1

/-- C5: a minimal valid Task is recovered, passing validation, from all
five input shapes: the raw JSON alone (strategy 1), a fenced code block
(strategy 2), prose-prefixed JSON (strategy 3), prose-prefixed
multi-line JSON with balanced brace characters inside string values
(the fragile depth-count case), and — for the array extractor — an
array of two task objects. -/
theorem C5_five_shapes :
    parseFeature shape1 = some (minTaskJson ("F001")) ∧
    validateFeatureAdder (minTaskJson ("F001")) = true ∧
    parseFeature shape2 = some (minTaskJson ("F001")) ∧
    parseFeature shape3 = some (minTaskJson ("F001")) ∧
    parseFeature shape4 = some shape4Json ∧
    validateFeatureAdder shape4Json = true ∧
    parseFeatures shape5 = some [minTaskJson ("F003"), minTaskJson ("F004")] ∧
    validateFeatureAtomizer (minTaskJson ("F003")) = true ∧
    validateFeatureAtomizer (minTaskJson ("F004")) = true :=
  ⟨rfl, rfl, rfl, rfl, rfl, rfl, rfl, rfl, rfl⟩

end DevAgentHarness
